import Mathlib

/-
Verification of the MDCAT-Test-Generator backend (src/server.js).

The server-side functions relevant to the claims are embedded shallowly:
  * question candidates coming back from the model are JSON-like values
    (JVal below); JavaScript property access, truthiness, typeof checks and
    the spread-with-override pattern are modelled explicitly;
  * the external model endpoint, Math.random and wall-clock delays are
    modelled as oracle parameters (a call oracle indexed by the number of
    underlying calls already made, and a random-draw oracle);
  * JavaScript numbers carrying question counts are Nat/Int; the syllabus
    percentages 0.45/0.25/0.20/0.05/0.05 are exact two-decimal fractions,
    so Math.floor(total * p) agrees with total * n / 100 in exact integer
    arithmetic for the totals the server accepts.
-/

set_option maxRecDepth 8000

namespace MDCAT

/-- JSON-like values as produced by parsing the model response in server.js.
String-keyed property access on non-objects yields none (undefined), which
matches JavaScript for every key this server reads. -/
inductive JVal where
  | null : JVal
  | bool (b : Bool) : JVal
  | num (n : Int) : JVal
  | str (s : String) : JVal
  | arr (elems : List JVal) : JVal
  | obj (fields : List (String × JVal)) : JVal

/-- Property lookup in a field list; the first binding wins (JavaScript
objects have unique keys, so this is the plain association-list read). -/
def lookupField : List (String × JVal) → String → Option JVal
  | [], _ => none
  | kv :: rest, k => if kv.1 = k then some kv.2 else lookupField rest k

/-- JavaScript property read q[k]; none models undefined. -/
def JVal.getField : JVal → String → Option JVal
  | .obj fs, k => lookupField fs k
  | _, _ => none

/-- q.hasOwnProperty(k) for the string keys the validator checks. -/
def JVal.hasField (q : JVal) (k : String) : Bool := (q.getField k).isSome

/-- typeof q === 'object' (true for null, arrays and plain objects). -/
def jsTypeofObject : JVal → Bool
  | .null => true
  | .arr _ => true
  | .obj _ => true
  | _ => false

/-- JavaScript truthiness of a value. -/
def jsTruthy : JVal → Bool
  | .null => false
  | .bool b => b
  | .num n => n ≠ 0
  | .str s => s ≠ ""
  | .arr _ => true
  | .obj _ => true

/-- Truthiness of a possibly-undefined property read. -/
def jsTruthyOpt : Option JVal → Bool
  | none => false
  | some v => jsTruthy v

/-- The own enumerable string-keyed fields collected by an object spread.
Spreading a primitive or an array contributes none of the string keys this
server ever reads, so those cases flatten to the empty field list. -/
def spreadFields : JVal → List (String × JVal)
  | .obj fs => fs
  | _ => []

/-- Updating one field, as the spread-with-override pattern does: an
existing key keeps its position and gets the new value, a new key is
appended. -/
def setFieldList : List (String × JVal) → String → JVal → List (String × JVal)
  | [], k, v => [(k, v)]
  | kv :: rest, k, v => if kv.1 = k then (k, v) :: rest else kv :: setFieldList rest k v

/-- The object produced by spreading q and overriding field k with v. -/
def jSetField (q : JVal) (k : String) (v : JVal) : JVal :=
  .obj (setFieldList (spreadFields q) k v)

/-- Per-subject integer shares of a full test. -/
structure Distribution where
  biology : Nat
  chemistry : Nat
  physics : Nat
  english : Nat
  logical : Nat

/-- Sum of the five shares. -/
def distSum (d : Distribution) : Nat :=
  d.biology + d.chemistry + d.physics + d.english + d.logical

/-- One step of the remainder loop: result[priorities[i % 5]]++ where
priorities = [biology, chemistry, physics, english, logical]. -/
def bumpSubject (d : Distribution) : Nat → Distribution
  | 0 => { d with biology := d.biology + 1 }
  | 1 => { d with chemistry := d.chemistry + 1 }
  | 2 => { d with physics := d.physics + 1 }
  | 3 => { d with english := d.english + 1 }
  | _ => { d with logical := d.logical + 1 }

/-- The remainder loop of calculateDistribution: for i in 0..remaining-1,
increment the subject at priority position i % 5. -/
def distributeRemaining (d : Distribution) (remaining : Nat) : Distribution :=
  (List.range remaining).foldl (fun acc i => bumpSubject acc (i % 5)) d

/-- calculateDistribution from server.js. Math.floor(total * percentage)
with the syllabus percentages is total * n / 100 in integer arithmetic. -/
def calculateDistribution (total : Nat) : Distribution :=
  let biology := total * 45 / 100
  let chemistry := total * 25 / 100
  let physics := total * 20 / 100
  let english := total * 5 / 100
  let logical := total * 5 / 100
  let currentSum := biology + chemistry + physics + english + logical
  distributeRemaining ⟨biology, chemistry, physics, english, logical⟩ (total - currentSum)

/-- Pairs each element with its 0-based position, like the index argument
of Array.prototype.map. -/
def enumFrom {α : Type} : Nat → List α → List (Nat × α)
  | _, [] => []
  | i, a :: as => (i, a) :: enumFrom (i + 1) as

/-- addIds from server.js: questions.map((q, i) => spread q with id i+1). -/
def addIds (questions : List JVal) : List JVal :=
  (enumFrom 0 questions).map (fun p => jSetField p.2 "id" (.num ((p.1 : Int) + 1)))

/-- The per-candidate checks of validateAndFilterQuestions, in source order
with the same short-circuiting: truthy object, required fields present,
question a string of length at least 10, options an array of exactly 4
non-empty strings, answer one of the four letters, subject a string. -/
def isValidQuestion (q : JVal) : Bool :=
  (jsTruthy q && jsTypeofObject q) &&
  (q.hasField "question" && q.hasField "options" && q.hasField "answer" && q.hasField "subject") &&
  (match q.getField "question" with
    | some (.str s) => decide (10 ≤ s.length)
    | _ => false) &&
  (match q.getField "options" with
    | some (.arr opts) =>
        decide (opts.length = 4) &&
        opts.all (fun o => match o with | .str s => decide (s ≠ "") | _ => false)
    | _ => false) &&
  (match q.getField "answer" with
    | some (.str a) => decide (a = "A" ∨ a = "B" ∨ a = "C" ∨ a = "D")
    | _ => false) &&
  (match q.getField "subject" with
    | some (.str _) => true
    | _ => false)

/-- validateAndFilterQuestions from server.js; the requested count is only
logged, never used to accept or reject. -/
def validateAndFilterQuestions (questions : List JVal) (requestedCount : Nat) : List JVal :=
  questions.filter isValidQuestion

/-- The Validator acceptance condition as the specification states it. -/
def SpecValidCandidate (q : JVal) : Prop :=
  (∃ fs, q = JVal.obj fs) ∧
  (q.hasField "question" ∧ q.hasField "options" ∧ q.hasField "answer" ∧ q.hasField "subject") ∧
  (∃ s, q.getField "question" = some (.str s) ∧ 10 ≤ s.length) ∧
  (∃ opts, q.getField "options" = some (.arr opts) ∧ opts.length = 4 ∧
    ∀ o ∈ opts, ∃ t, o = JVal.str t ∧ t ≠ "") ∧
  (∃ a, q.getField "answer" = some (.str a) ∧ (a = "A" ∨ a = "B" ∨ a = "C" ∨ a = "D")) ∧
  (∃ t, q.getField "subject" = some (.str t))

/-- The yearRange request field: absent/null, a string, or an object with
start and end numbers. -/
inductive YearRange where
  | missing : YearRange
  | str (s : String) : YearRange
  | window (startYear endYear : Int) : YearRange

/-- normalizeYearRange from server.js; none models the null result. The
object branch requires truthy start and end, else the 2020-2025 default. -/
def normalizeYearRange : YearRange → Option (Int × Int)
  | .missing => none
  | .str s =>
      if s = "" then none
      else if s = "all" then none
      else if s = "recent" then some (2020, 2025)
      else if s = "2010s" then some (2010, 2019)
      else if s = "2020s" then some (2020, 2025)
      else some (2020, 2025)
  | .window s e =>
      if s ≠ 0 ∧ e ≠ 0 then some (s, e) else some (2020, 2025)

/-- getRandomYear from server.js; r models the Math.random draw, reduced
modulo the window span (Math.floor(random * span) ranges over 0..span-1). -/
def getRandomYear (yearRange : YearRange) (r : Nat) : Int :=
  match normalizeYearRange yearRange with
  | none => 2018 + ((r % 8 : Nat) : Int)
  | some (s, e) =>
      let span := (e + 1 - s).toNat
      if span = 0 then s else s + ((r % span : Nat) : Int)

/-- The post-parse backfill in callGeminiAPI: spread each candidate with
year/topic/difficulty defaults. The year fallback is getRandomYear(null),
i.e. the fixed 2018-2025 window, independent of the requested range. -/
def backfillCandidate (r : Nat) (q : JVal) : JVal :=
  jSetField (jSetField (jSetField q "year"
      (if jsTruthyOpt (q.getField "year") then (q.getField "year").getD .null
       else .num (getRandomYear .missing r)))
    "topic"
      (if jsTruthyOpt (q.getField "topic") then (q.getField "topic").getD .null
       else .str "General"))
    "difficulty"
      (if jsTruthyOpt (q.getField "difficulty") then (q.getField "difficulty").getD .null
       else .str "moderate")

/-- The attempt loop of callGeminiAPIWithRetry. oracle attempt is the
outcome of the underlying callGeminiAPI on that (1-based) attempt; the
fuel argument counts the loop iterations left, and the second component of
the result counts underlying calls actually made. An empty successful
result on a non-final attempt loops again; on the final attempt it becomes
the dedicated error; an error on the final attempt is rethrown as-is. -/
def retryLoop (oracle : Nat → Except String (List JVal)) (maxRetries : Nat) :
    Nat → Nat → Except String (List JVal) × Nat
  | 0, _ => (.error "All retry attempts failed", 0)
  | fuel + 1, attempt =>
    match oracle attempt with
    | .ok r =>
        if 0 < r.length then (.ok r, 1)
        else if attempt = maxRetries then
          (.error "No valid questions generated after all attempts", 1)
        else
          let p := retryLoop oracle maxRetries fuel (attempt + 1)
          (p.1, p.2 + 1)
    | .error e =>
        if attempt = maxRetries then (.error e, 1)
        else
          let p := retryLoop oracle maxRetries fuel (attempt + 1)
          (p.1, p.2 + 1)

/-- callGeminiAPIWithRetry(prompt, maxRetries) over a call oracle. -/
def callGeminiAPIWithRetry (oracle : Nat → Except String (List JVal)) (maxRetries : Nat) :
    Except String (List JVal) × Nat :=
  retryLoop oracle maxRetries maxRetries 1

/-- The generation parameters assembled by the request handler. -/
structure GenParams where
  testFormat : String
  selectedSubject : Option String
  topic : Option String
  questionCount : Nat
  yearRange : YearRange

/-- Truthiness of an optional string field (absent and empty are falsy). -/
def optTruthy : Option String → Bool
  | none => false
  | some s => s ≠ ""

/-- Per-question cleanup in generateSequentialFullTest: stamp the canonical
subject name over whatever the model claimed and backfill a missing year
from the requested range. -/
def stampQuestion (name : String) (yearRange : YearRange) (r : Nat) (q : JVal) : JVal :=
  jSetField (jSetField q "subject" (.str name)) "year"
    (if jsTruthyOpt (q.getField "year") then (q.getField "year").getD .null
     else .num (getRandomYear yearRange r))

/-- One row of the subjects table in generateSequentialFullTest. -/
structure SubjectSpec where
  name : String
  key : String
  count : Nat

/-- The subjects array of generateSequentialFullTest, in source order with
the computed distribution counts. -/
def fullTestSubjects (questionCount : Nat) : List SubjectSpec :=
  let d := calculateDistribution questionCount
  [⟨"Biology", "biology", d.biology⟩, ⟨"Chemistry", "chemistry", d.chemistry⟩,
   ⟨"Physics", "physics", d.physics⟩, ⟨"English", "english", d.english⟩,
   ⟨"Logical Reasoning", "logical", d.logical⟩]

/-- Result of a generation strategy run: the questions plus the number of
underlying model calls made and of retry-wrapper invocations issued. -/
structure SeqResult where
  questions : List JVal
  calls : Nat
  invocations : Nat

/-- The per-subject loop of generateSequentialFullTest. base is the number
of underlying model calls already made (the oracle is shifted by it); rand
models the Math.random draws of the per-question year backfill. A subject
with zero share is skipped without any call; a failed subject contributes
nothing and the loop continues. -/
def seqGo (oracle : Nat → Except String (List JVal)) (rand : Nat → Nat → Nat)
    (yearRange : YearRange) : List SubjectSpec → Nat → SeqResult
  | [], _ => ⟨[], 0, 0⟩
  | s :: rest, base =>
    if s.count = 0 then seqGo oracle rand yearRange rest base
    else
      let p := callGeminiAPIWithRetry (fun a => oracle (base + a - 1)) 2
      let segment :=
        match p.1 with
        | .ok r =>
            if 0 < r.length then
              (enumFrom 0 (r.take s.count)).map
                (fun iq => stampQuestion s.name yearRange (rand base iq.1) iq.2)
            else []
        | .error _ => []
      let restResult := seqGo oracle rand yearRange rest (base + p.2)
      ⟨segment ++ restResult.questions, p.2 + restResult.calls, 1 + restResult.invocations⟩

/-- generateSequentialFullTest from server.js. -/
def generateSequentialFullTest (oracle : Nat → Except String (List JVal))
    (rand : Nat → Nat → Nat) (params : GenParams) : SeqResult :=
  seqGo oracle rand params.yearRange (fullTestSubjects params.questionCount) 0

/-- Math.ceil(a / b) on naturals. -/
def natCeilDiv (a b : Nat) : Nat := (a + b - 1) / b

/-- The batch loop of generateQuestionsWithBatching. remaining counts loop
iterations left (numBatches - i); base shifts the call oracle. Each batch
is sized to the remaining need, a failed batch is skipped, and the loop
stops early once the accumulated list reaches the requested count. -/
def batchLoop (oracle : Nat → Except String (List JVal)) (questionCount batchSize : Nat) :
    Nat → Nat → List JVal → SeqResult
  | 0, _, acc => ⟨acc, 0, 0⟩
  | remaining + 1, base, acc =>
    let currentBatchSize := min batchSize (questionCount - acc.length)
    if currentBatchSize = 0 then ⟨acc, 0, 0⟩
    else
      let p := callGeminiAPIWithRetry (fun a => oracle (base + a - 1)) 2
      let acc2 :=
        match p.1 with
        | .ok r => if 0 < r.length then acc ++ r else acc
        | .error _ => acc
      if questionCount ≤ acc2.length then ⟨acc2, p.2, 1⟩
      else
        let restResult := batchLoop oracle questionCount batchSize remaining (base + p.2) acc2
        ⟨restResult.questions, p.2 + restResult.calls, 1 + restResult.invocations⟩

/-- The batching tail of generateQuestionsWithBatching: batch size
min(30, ceil(count/3)), ceil(count/batchSize) batches, final accumulated
list truncated to the requested count. -/
def batchingStrategy (oracle : Nat → Except String (List JVal)) (questionCount : Nat) :
    SeqResult :=
  let batchSize := min 30 (natCeilDiv questionCount 3)
  let numBatches := natCeilDiv questionCount batchSize
  let run := batchLoop oracle questionCount batchSize numBatches 0 []
  ⟨run.questions.take questionCount, run.calls, run.invocations⟩

/-- The five generation strategies of the orchestrator. -/
inductive Strategy where
  | topicSingle : Strategy
  | subjectSingle : Strategy
  | sequentialFull : Strategy
  | smallSingle : Strategy
  | batched : Strategy
  deriving DecidableEq

/-- One orchestrator run: which strategy was chosen, its outcome, and the
underlying-call / retry-wrapper-invocation counts. -/
structure GenRun where
  strategy : Strategy
  result : Except String (List JVal)
  calls : Nat
  invocations : Nat

/-- generateQuestionsWithBatching from server.js, with its strategy
selection chain in source order. -/
def generateQuestionsWithBatching (oracle : Nat → Except String (List JVal))
    (rand : Nat → Nat → Nat) (params : GenParams) : GenRun :=
  if params.testFormat = "topic-test" ∧ optTruthy params.topic then
    let p := callGeminiAPIWithRetry oracle 3
    ⟨.topicSingle, p.1, p.2, 1⟩
  else if params.testFormat = "subject-test" ∧ optTruthy params.selectedSubject ∧
      params.questionCount ≤ 35 then
    let p := callGeminiAPIWithRetry oracle 3
    ⟨.subjectSingle, p.1, p.2, 1⟩
  else if params.testFormat = "full-test" ∧ 30 < params.questionCount then
    let s := generateSequentialFullTest oracle rand params
    ⟨.sequentialFull, .ok s.questions, s.calls, s.invocations⟩
  else if params.questionCount ≤ 35 then
    let p := callGeminiAPIWithRetry oracle 3
    ⟨.smallSingle, p.1, p.2, 1⟩
  else
    let b := batchingStrategy oracle params.questionCount
    ⟨.batched, .ok b.questions, b.calls, b.invocations⟩

/-- The body of POST /api/generate-questions as far as the claims need it:
count present as a number or not, plus the optional string fields (the
legacy subject field is the alias used when selectedSubject is absent). -/
structure ApiRequest where
  count : Option (Option Int)
  testFormat : Option String
  selectedSubject : Option String
  subject : Option String
  topic : Option String

/-- JavaScript String.prototype.includes for a non-empty pattern. -/
def strIncludes (s pat : String) : Bool := (s.splitOn pat).length ≠ 1

/-- testFormat || 'full-test'. -/
def resolveTestFormat (r : ApiRequest) : String :=
  if optTruthy r.testFormat then r.testFormat.getD "" else "full-test"

/-- selectedSubject || subject (the legacy alias). -/
def resolveSubject (r : ApiRequest) : Option String :=
  if optTruthy r.selectedSubject then r.selectedSubject else r.subject

/-- The five valid subject keys checked by the endpoint. -/
def subjectKeys : List String := ["biology", "chemistry", "physics", "english", "logical"]

/-- String.prototype.toLowerCase for the ASCII subject names. -/
def jsToLower (s : String) : String := String.mk (s.data.map Char.toLower)

/-- The HTTP status computed by POST /api/generate-questions, with the
generation outcome supplied as a parameter (it is only consulted once the
request validates). Mirrors the handler: the count guard, the topic-test
and subject-test guards, then the error-message classification (timeout
before API, else rethrow into the 500 handler), then the empty-validation
guard, else 200. -/
def endpointStatus (r : ApiRequest) (gen : Except String (List JVal)) : Nat :=
  match r.count with
  | none => 400
  | some none => 400
  | some (some n) =>
    if n < 1 ∨ 180 < n then 400
    else if resolveTestFormat r = "topic-test" ∧ (r.topic.getD "").trim = "" then 400
    else if resolveTestFormat r = "subject-test" ∧ ¬ optTruthy (resolveSubject r) then 400
    else if resolveTestFormat r = "subject-test" ∧
        ¬ jsToLower ((resolveSubject r).getD "") ∈ subjectKeys then 400
    else
      match gen with
      | .error m =>
          if strIncludes m "timeout" then 408
          else if strIncludes m "API" then 503
          else 500
      | .ok qs =>
          if (validateAndFilterQuestions qs n.toNat).length = 0 then 500 else 200

/-- Bad-count condition in the words of the claim: count missing,
non-numeric, or outside 1..180. -/
def SpecBadCount (r : ApiRequest) : Prop :=
  r.count = none ∨ r.count = some none ∨
    ∃ n : Int, r.count = some (some n) ∧ (n < 1 ∨ 180 < n)

/-- Topic-test-without-a-non-blank-topic condition in the words of the
claim. -/
def SpecMissingTopic (r : ApiRequest) : Prop :=
  resolveTestFormat r = "topic-test" ∧ (r.topic.getD "").trim = ""

/-- Subject-test-with-absent-or-invalid-subject condition in the words of
the claim: the resolved subject, lowercased, is not one of the five keys
(an absent subject lowercases to the empty string, which is not a key). -/
def SpecInvalidSubject (r : ApiRequest) : Prop :=
  resolveTestFormat r = "subject-test" ∧
    ¬ jsToLower ((resolveSubject r).getD "") ∈ subjectKeys

/-- The remainder left after the five floored shares. -/
def remainderOf (total : Nat) : Nat :=
  total - (total * 45 / 100 + total * 25 / 100 + total * 20 / 100 +
    total * 5 / 100 + total * 5 / 100)

/-- The accumulator update of one batch of the batch loop: append a
non-empty successful batch result, keep the accumulator unchanged on a
failed or empty batch. -/
def batchAcc (oracle : Nat → Except String (List JVal)) (base : Nat) (acc : List JVal) :
    List JVal :=
  match (callGeminiAPIWithRetry (fun a => oracle (base + a - 1)) 2).1 with
  | .ok r => if 0 < r.length then acc ++ r else acc
  | .error _ => acc

/-! Concrete sample data used to exercise the theorems. -/

/-- A structurally conforming candidate. -/
def goodCandidate : JVal :=
  .obj [("question", .str "Which organelle is the powerhouse of the cell?"),
        ("options", .arr [.str "Nucleus", .str "Mitochondria", .str "Ribosome", .str "Cell wall"]),
        ("answer", .str "B"),
        ("subject", .str "Biology")]

/-- A candidate missing most required fields. -/
def badCandidate : JVal := .obj [("answer", .str "E")]

/-- An oracle whose every call returns one conforming candidate. -/
def stubOracle : Nat → Except String (List JVal) := fun _ => .ok [goodCandidate]

/-- A degenerate random-draw oracle. -/
def zeroRand : Nat → Nat → Nat := fun _ _ => 0

/-- Parameters of a topic test. -/
def topicParams : GenParams := ⟨"topic-test", none, some "Enzymes", 10, .missing⟩

/-- Parameters of a one-question full test. -/
def fullParams1 : GenParams := ⟨"full-test", none, none, 1, .missing⟩

/-- 36 conforming candidates at once. -/
def bigList : List JVal := List.replicate 36 goodCandidate

/-- An oracle delivering 36 candidates on every call. -/
def bigOracle : Nat → Except String (List JVal) := fun _ => .ok bigList

/-- A request with no count at all. -/
def emptyRequest : ApiRequest := ⟨none, none, none, none, none⟩

/-! Helper lemmas about the distribution calculator. -/

lemma distSum_bumpSubject (d : Distribution) (i : Nat) :
    distSum (bumpSubject d i) = distSum d + 1 := by
  rcases i with _ | _ | _ | _ | i <;> simp [bumpSubject, distSum] <;> omega

lemma distributeRemaining_succ (d : Distribution) (n : Nat) :
    distributeRemaining d (n + 1) = bumpSubject (distributeRemaining d n) (n % 5) := by
  unfold distributeRemaining
  rw [List.range_succ, List.foldl_append, List.foldl_cons, List.foldl_nil]

lemma distSum_distributeRemaining (d : Distribution) (k : Nat) :
    distSum (distributeRemaining d k) = distSum d + k := by
  induction k with
  | zero => simp [distributeRemaining]
  | succ n ih => rw [distributeRemaining_succ, distSum_bumpSubject, ih]; omega

lemma floorSum_le_total (total : Nat) :
    total * 45 / 100 + total * 25 / 100 + total * 20 / 100 +
      total * 5 / 100 + total * 5 / 100 ≤ total ∧
    total - (total * 45 / 100 + total * 25 / 100 + total * 20 / 100 +
      total * 5 / 100 + total * 5 / 100) ≤ 4 := by
  constructor <;> omega

lemma calculateDistribution_sum (total : Nat) :
    distSum (calculateDistribution total) = total := by
  unfold calculateDistribution
  rw [distSum_distributeRemaining]
  have h := floorSum_le_total total
  simp only [distSum]
  omega

lemma distributeRemaining_small (d : Distribution) (k : Nat) (hk : k ≤ 5) :
    distributeRemaining d k =
      ⟨d.biology + (if 1 ≤ k then 1 else 0), d.chemistry + (if 2 ≤ k then 1 else 0),
       d.physics + (if 3 ≤ k then 1 else 0), d.english + (if 4 ≤ k then 1 else 0),
       d.logical + (if 5 ≤ k then 1 else 0)⟩ := by
  obtain ⟨b, c, p, e, l⟩ := d
  interval_cases k <;>
    simp [distributeRemaining, List.range_succ, bumpSubject]

/-- The shares of calculateDistribution are the floors plus at most one
remainder unit each, handed out in priority order. -/
lemma calculateDistribution_eq (total : Nat) :
    calculateDistribution total =
      ⟨total * 45 / 100 + (if 1 ≤ remainderOf total then 1 else 0),
       total * 25 / 100 + (if 2 ≤ remainderOf total then 1 else 0),
       total * 20 / 100 + (if 3 ≤ remainderOf total then 1 else 0),
       total * 5 / 100 + (if 4 ≤ remainderOf total then 1 else 0),
       total * 5 / 100 + (if 5 ≤ remainderOf total then 1 else 0)⟩ := by
  have h4 := (floorSum_le_total total).2
  unfold calculateDistribution remainderOf
  rw [distributeRemaining_small _ _ (by omega)]

/-- C1: for every non-negative integer total the Distribution Calculator
returns five integer shares whose sum equals total exactly; the remainder
left after the floored shares is distributed one unit at a time in the
fixed priority order biology, chemistry, physics, english, logical (the
loop cycles modulo the five subjects, so any remainder k adds exactly k
units in total; the remainder itself never exceeds 4). -/
theorem distribution_shares_sum_to_total : ∀ total : Nat,
    distSum (calculateDistribution total) = total ∧
    (∀ (d : Distribution) (k : Nat), distSum (distributeRemaining d k) = distSum d + k) ∧
    remainderOf total ≤ 4 ∧
    calculateDistribution total =
      ⟨total * 45 / 100 + (if 1 ≤ remainderOf total then 1 else 0),
       total * 25 / 100 + (if 2 ≤ remainderOf total then 1 else 0),
       total * 20 / 100 + (if 3 ≤ remainderOf total then 1 else 0),
       total * 5 / 100 + (if 4 ≤ remainderOf total then 1 else 0),
       total * 5 / 100 + (if 5 ≤ remainderOf total then 1 else 0)⟩ := by
  intro total
  refine ⟨calculateDistribution_sum total, distSum_distributeRemaining, ?_,
    calculateDistribution_eq total⟩
  have h := (floorSum_le_total total).2
  unfold remainderOf
  omega

lemma floor_share_deviation (n t q r e : Nat) (hdm : t * n = 100 * q + r) (hr : r < 100)
    (he : e ≤ 1) : |((q + e : Nat) : ℚ) - (t : ℚ) * ((n : ℚ) / 100)| ≤ 1 := by
  have h : (t : ℚ) * (n : ℚ) = 100 * (q : ℚ) + (r : ℚ) := by exact_mod_cast hdm
  have hrq : (r : ℚ) < 100 := by exact_mod_cast hr
  have hrq0 : (0 : ℚ) ≤ (r : ℚ) := by positivity
  have heq : (e : ℚ) ≤ 1 := by exact_mod_cast he
  have heq0 : (0 : ℚ) ≤ (e : ℚ) := by positivity
  have key : ((q + e : Nat) : ℚ) - (t : ℚ) * ((n : ℚ) / 100) =
      ((e : ℚ) * 100 - (r : ℚ)) / 100 := by
    push_cast
    field_simp
    linarith
  rw [key, abs_le]
  refine ⟨?_, ?_⟩
  · rw [le_div_iff₀ (by norm_num : (0 : ℚ) < 100)]
    linarith
  · rw [div_le_iff₀ (by norm_num : (0 : ℚ) < 100)]
    linarith

/-- C6 counterexample: at total = 104 the chemistry share is 27 while
104 * 0.25 = 26 exactly, so the deviation is exactly 1, not strictly less
than 1 as claimed. -/
theorem share_deviation_counterexample :
    (calculateDistribution 104).chemistry = 27 ∧
    ¬ |((calculateDistribution 104).chemistry : ℚ) - (104 : ℚ) * ((25 : ℚ) / 100)| < 1 := by
  have h : (calculateDistribution 104).chemistry = 27 := by decide
  refine ⟨h, ?_⟩
  rw [h]
  norm_num

/-- C6 amended: for every total ≥ 100 each of the five shares deviates from
total * percentage by at most 1 (the bound 1 is attained, for instance at
total = 104 on chemistry). -/
theorem share_deviation_le_one : ∀ total : Nat, 100 ≤ total →
    |((calculateDistribution total).biology : ℚ) - (total : ℚ) * ((45 : ℚ) / 100)| ≤ 1 ∧
    |((calculateDistribution total).chemistry : ℚ) - (total : ℚ) * ((25 : ℚ) / 100)| ≤ 1 ∧
    |((calculateDistribution total).physics : ℚ) - (total : ℚ) * ((20 : ℚ) / 100)| ≤ 1 ∧
    |((calculateDistribution total).english : ℚ) - (total : ℚ) * ((5 : ℚ) / 100)| ≤ 1 ∧
    |((calculateDistribution total).logical : ℚ) - (total : ℚ) * ((5 : ℚ) / 100)| ≤ 1 := by
  intro total htot
  rw [calculateDistribution_eq]
  dsimp only
  refine ⟨?_, ?_, ?_, ?_, ?_⟩
  · exact floor_share_deviation 45 total (total * 45 / 100) (total * 45 % 100)
      _ (by omega) (by omega) (by split <;> omega)
  · exact floor_share_deviation 25 total (total * 25 / 100) (total * 25 % 100)
      _ (by omega) (by omega) (by split <;> omega)
  · exact floor_share_deviation 20 total (total * 20 / 100) (total * 20 % 100)
      _ (by omega) (by omega) (by split <;> omega)
  · exact floor_share_deviation 5 total (total * 5 / 100) (total * 5 % 100)
      _ (by omega) (by omega) (by split <;> omega)
  · exact floor_share_deviation 5 total (total * 5 / 100) (total * 5 % 100)
      _ (by omega) (by omega) (by split <;> omega)

/-- Witness for the amended C6 bound, at total = 100. -/
theorem share_deviation_le_one_witness :
    |((calculateDistribution 100).biology : ℚ) - (100 : ℚ) * ((45 : ℚ) / 100)| ≤ 1 ∧
    |((calculateDistribution 100).chemistry : ℚ) - (100 : ℚ) * ((25 : ℚ) / 100)| ≤ 1 ∧
    |((calculateDistribution 100).physics : ℚ) - (100 : ℚ) * ((20 : ℚ) / 100)| ≤ 1 ∧
    |((calculateDistribution 100).english : ℚ) - (100 : ℚ) * ((5 : ℚ) / 100)| ≤ 1 ∧
    |((calculateDistribution 100).logical : ℚ) - (100 : ℚ) * ((5 : ℚ) / 100)| ≤ 1 :=
  share_deviation_le_one 100 (by norm_num)

/-! Helper lemmas evaluating one attempt of the retry loop. -/

lemma retryLoop_step (oracle : Nat → Except String (List JVal)) (m fuel attempt : Nat) :
    retryLoop oracle m (fuel + 1) attempt =
      (match oracle attempt with
       | .ok r =>
           if 0 < r.length then (.ok r, 1)
           else if attempt = m then
             (.error "No valid questions generated after all attempts", 1)
           else ((retryLoop oracle m fuel (attempt + 1)).1,
                 (retryLoop oracle m fuel (attempt + 1)).2 + 1)
       | .error e =>
           if attempt = m then (.error e, 1)
           else ((retryLoop oracle m fuel (attempt + 1)).1,
                 (retryLoop oracle m fuel (attempt + 1)).2 + 1)) := rfl

lemma retryLoop_ok_pos (oracle : Nat → Except String (List JVal)) (m fuel attempt : Nat)
    (r : List JVal) (h : oracle attempt = .ok r) (hr : 0 < r.length) :
    retryLoop oracle m (fuel + 1) attempt = (.ok r, 1) := by
  rw [retryLoop_step, h]
  simp [hr]

lemma retryLoop_ok_empty (oracle : Nat → Except String (List JVal)) (m fuel attempt : Nat)
    (h : oracle attempt = .ok []) (hm : attempt ≠ m) :
    retryLoop oracle m (fuel + 1) attempt =
      ((retryLoop oracle m fuel (attempt + 1)).1,
       (retryLoop oracle m fuel (attempt + 1)).2 + 1) := by
  rw [retryLoop_step, h]
  simp [hm]

lemma retryLoop_err (oracle : Nat → Except String (List JVal)) (m fuel attempt : Nat)
    (e : String) (h : oracle attempt = .error e) (hm : attempt ≠ m) :
    retryLoop oracle m (fuel + 1) attempt =
      ((retryLoop oracle m fuel (attempt + 1)).1,
       (retryLoop oracle m fuel (attempt + 1)).2 + 1) := by
  rw [retryLoop_step, h]
  simp [hm]

lemma retryLoop_err_last (oracle : Nat → Except String (List JVal)) (m fuel : Nat)
    (e : String) (h : oracle m = .error e) :
    retryLoop oracle m (fuel + 1) m = (.error e, 1) := by
  rw [retryLoop_step, h]
  simp

/-- C4: the Retry Wrapper treats a successful call with zero results as
retryable, returns immediately on the first non-empty attempt, and with 3
attempts an oracle that is empty on attempts 1 and 2 and non-empty on
attempt 3 yields that result after exactly 3 underlying calls; exhausting
all attempts on errors propagates the last error. -/
theorem retry_empty_retryable_last_error :
    (∀ (oracle : Nat → Except String (List JVal)) (r : List JVal),
        oracle 1 = .ok r → 0 < r.length →
        callGeminiAPIWithRetry oracle 3 = (.ok r, 1)) ∧
    (∀ (oracle : Nat → Except String (List JVal)) (r : List JVal),
        oracle 1 = .ok [] → oracle 2 = .ok [] → oracle 3 = .ok r → 0 < r.length →
        callGeminiAPIWithRetry oracle 3 = (.ok r, 3)) ∧
    (∀ (oracle : Nat → Except String (List JVal)) (e1 e2 e3 : String),
        oracle 1 = .error e1 → oracle 2 = .error e2 → oracle 3 = .error e3 →
        callGeminiAPIWithRetry oracle 3 = (.error e3, 3)) := by
  refine ⟨?_, ?_, ?_⟩
  · intro oracle r h1 hr
    exact retryLoop_ok_pos oracle 3 2 1 r h1 hr
  · intro oracle r h1 h2 h3 hr
    have s2 : retryLoop oracle 3 2 2 =
        ((retryLoop oracle 3 1 3).1, (retryLoop oracle 3 1 3).2 + 1) :=
      retryLoop_ok_empty oracle 3 1 2 h2 (by norm_num)
    have s3 : retryLoop oracle 3 1 3 = (.ok r, 1) :=
      retryLoop_ok_pos oracle 3 0 3 r h3 hr
    calc callGeminiAPIWithRetry oracle 3
        = ((retryLoop oracle 3 2 2).1, (retryLoop oracle 3 2 2).2 + 1) :=
          retryLoop_ok_empty oracle 3 2 1 h1 (by norm_num)
      _ = (.ok r, 3) := by rw [s2, s3]
  · intro oracle e1 e2 e3 h1 h2 h3
    have s2 : retryLoop oracle 3 2 2 =
        ((retryLoop oracle 3 1 3).1, (retryLoop oracle 3 1 3).2 + 1) :=
      retryLoop_err oracle 3 1 2 e2 h2 (by norm_num)
    have s3 : retryLoop oracle 3 1 3 = (.error e3, 1) :=
      retryLoop_err_last oracle 3 0 e3 h3
    calc callGeminiAPIWithRetry oracle 3
        = ((retryLoop oracle 3 2 2).1, (retryLoop oracle 3 2 2).2 + 1) :=
          retryLoop_err oracle 3 2 1 e1 h1 (by norm_num)
      _ = (.error e3, 3) := by rw [s2, s3]

/-- Witness for C4 on a concrete oracle: empty results on attempts 1 and 2
and one question on attempt 3 give that result after 3 calls. -/
theorem retry_empty_retryable_last_error_witness :
    callGeminiAPIWithRetry
      (fun a => if a ≤ 2 then .ok [] else .ok [JVal.obj [("question", JVal.str "stub")]]) 3 =
      (.ok [JVal.obj [("question", JVal.str "stub")]], 3) :=
  retry_empty_retryable_last_error.2.1
    (fun a => if a ≤ 2 then .ok [] else .ok [JVal.obj [("question", JVal.str "stub")]])
    [JVal.obj [("question", JVal.str "stub")]] rfl rfl rfl (by simp)

/-! Helper lemmas about field update and lookup. -/

lemma lookupField_setFieldList_same (fs : List (String × JVal)) (k : String) (v : JVal) :
    lookupField (setFieldList fs k v) k = some v := by
  induction fs with
  | nil => simp [setFieldList, lookupField]
  | cons kv rest ih =>
      by_cases h : kv.1 = k
      · simp [setFieldList, h, lookupField]
      · simp [setFieldList, h, lookupField, ih]

lemma lookupField_setFieldList_ne (fs : List (String × JVal)) (k k2 : String) (v : JVal)
    (h : k2 ≠ k) : lookupField (setFieldList fs k v) k2 = lookupField fs k2 := by
  induction fs with
  | nil =>
      simp [setFieldList, lookupField]
      intro hk
      exact absurd hk.symm h
  | cons kv rest ih =>
      by_cases hk : kv.1 = k
      · have hne : k ≠ k2 := fun hc => h hc.symm
        simp [setFieldList, hk, lookupField, hne]
      · simp [setFieldList, hk, lookupField, ih]

lemma getField_jSetField_same (q : JVal) (k : String) (v : JVal) :
    (jSetField q k v).getField k = some v := by
  simp [jSetField, JVal.getField, lookupField_setFieldList_same]

lemma getField_jSetField_ne (q : JVal) (k k2 : String) (v : JVal) (h : k2 ≠ k) :
    (jSetField q k v).getField k2 = lookupField (spreadFields q) k2 := by
  simp [jSetField, JVal.getField, lookupField_setFieldList_ne _ _ _ _ h]

lemma enumFrom_length {α : Type} (j : Nat) (l : List α) :
    (enumFrom j l).length = l.length := by
  induction l generalizing j with
  | nil => rfl
  | cons a as ih => simp [enumFrom, ih]

lemma enumFrom_getElem {α : Type} (l : List α) : ∀ (j i : Nat) (h2 : i < l.length)
    (h1 : i < (enumFrom j l).length), (enumFrom j l)[i] = (j + i, l[i]) := by
  induction l with
  | nil => intro j i h2 h1; exact absurd h2 (Nat.not_lt_zero i)
  | cons a as ih =>
      intro j i h2 h1
      cases i with
      | zero => simp [enumFrom]
      | succ i2 =>
          have h2b : i2 < as.length := by simpa using h2
          have h1b : i2 < (enumFrom (j + 1) as).length := by
            rw [enumFrom_length]; exact h2b
          simp only [enumFrom, List.getElem_cons_succ]
          rw [ih (j + 1) i2 h2b h1b]
          have harith : j + 1 + i2 = j + (i2 + 1) := by omega
          rw [harith]

/-! The per-field checks of the validator, restated as existentials. -/

lemma match_question_iff (q : JVal) :
    (match q.getField "question" with
      | some (.str s) => decide (10 ≤ s.length)
      | _ => false) = true ↔
    ∃ s, q.getField "question" = some (.str s) ∧ 10 ≤ s.length := by
  cases hq : q.getField "question" with
  | none => simp
  | some v => cases v <;> simp

lemma option_entry_iff (o : JVal) :
    (match o with | JVal.str s => decide (s ≠ "") | _ => false) = true ↔
      ∃ t, o = JVal.str t ∧ t ≠ "" := by
  cases o <;> simp

lemma match_options_iff (q : JVal) :
    (match q.getField "options" with
      | some (.arr opts) =>
          decide (opts.length = 4) &&
          opts.all (fun o => match o with | .str s => decide (s ≠ "") | _ => false)
      | _ => false) = true ↔
    ∃ opts, q.getField "options" = some (.arr opts) ∧ opts.length = 4 ∧
      ∀ o ∈ opts, ∃ t, o = JVal.str t ∧ t ≠ "" := by
  cases hq : q.getField "options" with
  | none => simp
  | some v =>
      cases v with
      | arr opts =>
          simp only [Bool.and_eq_true, decide_eq_true_iff, List.all_eq_true,
            option_entry_iff, Option.some.injEq, JVal.arr.injEq]
          constructor
          · rintro ⟨hl, he⟩
            exact ⟨opts, rfl, hl, he⟩
          · rintro ⟨opts2, heq, hl, he⟩
            cases heq
            exact ⟨hl, he⟩
      | null => simp
      | bool b => simp
      | num n2 => simp
      | str s => simp
      | obj fs2 => simp

lemma match_answer_iff (q : JVal) :
    (match q.getField "answer" with
      | some (.str a) => decide (a = "A" ∨ a = "B" ∨ a = "C" ∨ a = "D")
      | _ => false) = true ↔
    ∃ a, q.getField "answer" = some (.str a) ∧ (a = "A" ∨ a = "B" ∨ a = "C" ∨ a = "D") := by
  cases hq : q.getField "answer" with
  | none => simp
  | some v => cases v <;> simp

lemma match_subject_iff (q : JVal) :
    (match q.getField "subject" with
      | some (.str _) => true
      | _ => false) = true ↔
    ∃ t, q.getField "subject" = some (.str t) := by
  cases hq : q.getField "subject" with
  | none => simp
  | some v => cases v <;> simp

lemma isValidQuestion_iff_spec (q : JVal) :
    isValidQuestion q = true ↔ SpecValidCandidate q := by
  cases q with
  | null => simp [isValidQuestion, SpecValidCandidate, jsTruthy]
  | bool b => simp [isValidQuestion, SpecValidCandidate, jsTypeofObject]
  | num n => simp [isValidQuestion, SpecValidCandidate, jsTypeofObject]
  | str s => simp [isValidQuestion, SpecValidCandidate, jsTypeofObject]
  | arr elems =>
      simp [isValidQuestion, SpecValidCandidate, JVal.hasField, JVal.getField]
  | obj fs =>
      unfold isValidQuestion SpecValidCandidate
      simp only [Bool.and_eq_true, match_question_iff, match_options_iff, match_answer_iff,
        match_subject_iff, jsTruthy, jsTypeofObject, JVal.hasField, decide_eq_true_iff]
      constructor
      · rintro ⟨⟨⟨⟨⟨-, ⟨⟨h1, h2⟩, h3⟩, h4⟩, hq⟩, ho⟩, ha⟩, hs⟩
        exact ⟨⟨fs, rfl⟩, ⟨h1, h2, h3, h4⟩, hq, ho, ha, hs⟩
      · rintro ⟨-, ⟨h1, h2, h3, h4⟩, hq, ho, ha, hs⟩
        exact ⟨⟨⟨⟨⟨by simp, ⟨⟨h1, h2⟩, h3⟩, h4⟩, hq⟩, ho⟩, ha⟩, hs⟩

/-- The length of addIds output. -/
lemma addIds_length (l : List JVal) : (addIds l).length = l.length := by
  simp [addIds, enumFrom_length]

/-- C3: the Validator keeps a candidate exactly when it is an object with
the required fields, a question string of length at least 10, exactly 4
non-empty option strings, an answer among A-D and a string subject; failing
candidates are dropped (the output is a sublist of the input, never a
failure of the whole batch), and each survivor gets a 1-based id equal to
its position in the filtered sequence. -/
theorem validator_keeps_iff_and_assigns_ids : ∀ (qs : List JVal) (n : Nat),
    (∀ q, q ∈ validateAndFilterQuestions qs n ↔ q ∈ qs ∧ SpecValidCandidate q) ∧
    (validateAndFilterQuestions qs n).Sublist qs ∧
    (addIds (validateAndFilterQuestions qs n)).length =
      (validateAndFilterQuestions qs n).length ∧
    (∀ (i : Nat) (h : i < (addIds (validateAndFilterQuestions qs n)).length),
        ((addIds (validateAndFilterQuestions qs n))[i]).getField "id" =
          some (.num ((i : Int) + 1))) := by
  intro qs n
  refine ⟨?_, List.filter_sublist qs, addIds_length _, ?_⟩
  · intro q
    rw [validateAndFilterQuestions, List.mem_filter, isValidQuestion_iff_spec]
  · intro i h
    set V := validateAndFilterQuestions qs n with hV
    have hlen : i < (enumFrom 0 V).length := by
      rw [enumFrom_length]
      rw [addIds_length] at h
      exact h
    have hVi : i < V.length := by rwa [enumFrom_length] at hlen
    show ((enumFrom 0 V).map
        (fun p => jSetField p.2 "id" (.num ((p.1 : Int) + 1))))[i].getField "id" = _
    rw [List.getElem_map, enumFrom_getElem V 0 i hVi hlen]
    simpa using getField_jSetField_same (V[i]) "id" (.num ((i : Int) + 1))

/-- Witness for C3 on concrete candidates: the conforming candidate is
kept by the validator. -/
theorem validator_keeps_iff_and_assigns_ids_witness :
    goodCandidate ∈ validateAndFilterQuestions [goodCandidate, badCandidate] 2 :=
  ((validator_keeps_iff_and_assigns_ids [goodCandidate, badCandidate] 2).1 goodCandidate).mpr
    ⟨List.mem_cons_self _ _,
     ⟨_, rfl⟩,
     ⟨rfl, rfl, rfl, rfl⟩,
     ⟨"Which organelle is the powerhouse of the cell?", rfl, by decide⟩,
     ⟨[.str "Nucleus", .str "Mitochondria", .str "Ribosome", .str "Cell wall"], rfl, rfl, by
        intro o ho
        simp only [List.mem_cons, List.not_mem_nil, or_false] at ho
        rcases ho with rfl | rfl | rfl | rfl <;> exact ⟨_, rfl, by decide⟩⟩,
     ⟨"B", rfl, Or.inr (Or.inl rfl)⟩,
     ⟨"Biology", rfl⟩⟩

/-! Helper lemmas about the sequential full-test loop. -/

lemma seqGo_nil (oracle : Nat → Except String (List JVal)) (rand : Nat → Nat → Nat)
    (yr : YearRange) (base : Nat) : seqGo oracle rand yr [] base = ⟨[], 0, 0⟩ := rfl

lemma seqGo_cons (oracle : Nat → Except String (List JVal)) (rand : Nat → Nat → Nat)
    (yr : YearRange) (s : SubjectSpec) (rest : List SubjectSpec) (base : Nat) :
    seqGo oracle rand yr (s :: rest) base =
      if s.count = 0 then seqGo oracle rand yr rest base
      else
        ⟨(match (callGeminiAPIWithRetry (fun a => oracle (base + a - 1)) 2).1 with
          | .ok r =>
              if 0 < r.length then
                (enumFrom 0 (r.take s.count)).map
                  (fun (iq : Nat × JVal) => stampQuestion s.name yr (rand base iq.1) iq.2)
              else []
          | .error _ => []) ++
          (seqGo oracle rand yr rest
            (base + (callGeminiAPIWithRetry (fun a => oracle (base + a - 1)) 2).2)).questions,
         (callGeminiAPIWithRetry (fun a => oracle (base + a - 1)) 2).2 +
           (seqGo oracle rand yr rest
             (base + (callGeminiAPIWithRetry (fun a => oracle (base + a - 1)) 2).2)).calls,
         1 + (seqGo oracle rand yr rest
             (base + (callGeminiAPIWithRetry (fun a => oracle (base + a - 1)) 2).2)).invocations⟩ :=
  rfl

lemma seqGo_mem (oracle : Nat → Except String (List JVal)) (rand : Nat → Nat → Nat)
    (yr : YearRange) : ∀ (subjects : List SubjectSpec) (base : Nat) (q : JVal),
    q ∈ (seqGo oracle rand yr subjects base).questions →
    ∃ s, s ∈ subjects ∧ ∃ rv raw, q = stampQuestion s.name yr rv raw := by
  intro subjects
  induction subjects with
  | nil =>
      intro base q h
      simp [seqGo_nil] at h
  | cons s rest ih =>
      intro base q h
      rw [seqGo_cons] at h
      by_cases hc : s.count = 0
      · rw [if_pos hc] at h
        obtain ⟨t, ht, hw⟩ := ih base q h
        exact ⟨t, List.mem_cons_of_mem _ ht, hw⟩
      · rw [if_neg hc] at h
        dsimp only at h
        rw [List.mem_append] at h
        rcases h with h | h
        · cases hR : (callGeminiAPIWithRetry (fun a => oracle (base + a - 1)) 2).1 with
          | ok r =>
              simp only [hR] at h
              by_cases hl : 0 < r.length
              · simp only [if_pos hl, List.mem_map] at h
                obtain ⟨iq, hiq, hEq⟩ := h
                exact ⟨s, List.mem_cons_self _ _, rand base iq.1, iq.2, hEq.symm⟩
              · simp only [if_neg hl] at h
                simp at h
          | error e =>
              simp only [hR] at h
              simp at h
        · obtain ⟨t, ht, hw⟩ := ih _ q h
          exact ⟨t, List.mem_cons_of_mem _ ht, hw⟩

lemma stampQuestion_subject (name : String) (yr : YearRange) (rv : Nat) (raw : JVal) :
    (stampQuestion name yr rv raw).getField "subject" = some (.str name) := by
  unfold stampQuestion
  rw [getField_jSetField_ne _ _ _ _ (by decide : ("subject" : String) ≠ "year")]
  exact lookupField_setFieldList_same _ _ _

lemma stampQuestion_year (name : String) (yr : YearRange) (rv : Nat) (raw : JVal) :
    (stampQuestion name yr rv raw).getField "year" =
      some (if jsTruthyOpt (raw.getField "year") then (raw.getField "year").getD .null
            else .num (getRandomYear yr rv)) := by
  unfold stampQuestion
  exact getField_jSetField_same _ _ _

/-- C9: every question returned by the sequential full-test strategy is a
stamped copy of a raw question from some subject sub-call: its subject
field equals that subject's canonical name regardless of what the model
claimed, and a missing year is backfilled from the requested year range
while a present year is kept. -/
theorem sequential_stamps_subject_and_year :
    ∀ (oracle : Nat → Except String (List JVal)) (rand : Nat → Nat → Nat)
      (params : GenParams) (q : JVal),
    q ∈ (generateSequentialFullTest oracle rand params).questions →
    ∃ s, s ∈ fullTestSubjects params.questionCount ∧ ∃ rv raw,
      q = stampQuestion s.name params.yearRange rv raw ∧
      q.getField "subject" = some (.str s.name) ∧
      (jsTruthyOpt (raw.getField "year") = false →
        q.getField "year" = some (.num (getRandomYear params.yearRange rv))) ∧
      (jsTruthyOpt (raw.getField "year") = true →
        q.getField "year" = raw.getField "year") := by
  intro oracle rand params q hmem
  obtain ⟨s, hs, rv, raw, hq⟩ :=
    seqGo_mem oracle rand params.yearRange (fullTestSubjects params.questionCount) 0 q hmem
  refine ⟨s, hs, rv, raw, hq, ?_, ?_, ?_⟩
  · rw [hq]
    exact stampQuestion_subject s.name params.yearRange rv raw
  · intro hfalse
    rw [hq, stampQuestion_year, hfalse]
    simp
  · intro htrue
    rw [hq, stampQuestion_year, htrue]
    cases hyr : raw.getField "year" with
    | none => rw [hyr] at htrue; simp [jsTruthyOpt] at htrue
    | some v => simp

/-- Witness for C9 at a concrete one-question full test. -/
theorem sequential_stamps_subject_and_year_witness :
    ∃ s, s ∈ fullTestSubjects fullParams1.questionCount ∧ ∃ rv raw,
      stampQuestion "Biology" YearRange.missing 0 goodCandidate =
        stampQuestion s.name fullParams1.yearRange rv raw ∧
      (stampQuestion "Biology" YearRange.missing 0 goodCandidate).getField "subject" =
        some (.str s.name) ∧
      (jsTruthyOpt (raw.getField "year") = false →
        (stampQuestion "Biology" YearRange.missing 0 goodCandidate).getField "year" =
          some (.num (getRandomYear fullParams1.yearRange rv))) ∧
      (jsTruthyOpt (raw.getField "year") = true →
        (stampQuestion "Biology" YearRange.missing 0 goodCandidate).getField "year" =
          raw.getField "year") := by
  have hlist : (generateSequentialFullTest stubOracle zeroRand fullParams1).questions =
      [stampQuestion "Biology" YearRange.missing 0 goodCandidate] := rfl
  exact sequential_stamps_subject_and_year stubOracle zeroRand fullParams1
    (stampQuestion "Biology" YearRange.missing 0 goodCandidate)
    (by rw [hlist]; exact List.mem_cons_self _ _)

lemma seqGo_length (oracle : Nat → Except String (List JVal)) (rand : Nat → Nat → Nat)
    (yr : YearRange) : ∀ (subjects : List SubjectSpec) (base : Nat),
    (seqGo oracle rand yr subjects base).questions.length ≤
      (subjects.map (fun s => s.count)).sum := by
  intro subjects
  induction subjects with
  | nil => intro base; simp [seqGo_nil]
  | cons s rest ih =>
      intro base
      rw [seqGo_cons]
      by_cases hc : s.count = 0
      · rw [if_pos hc]
        have h := ih base
        simp only [List.map_cons, List.sum_cons]
        omega
      · rw [if_neg hc]
        dsimp only
        rw [List.length_append]
        have hseg : (match (callGeminiAPIWithRetry (fun a => oracle (base + a - 1)) 2).1 with
            | .ok r =>
                if 0 < r.length then
                  (enumFrom 0 (r.take s.count)).map
                    (fun (iq : Nat × JVal) => stampQuestion s.name yr (rand base iq.1) iq.2)
                else []
            | .error _ => []).length ≤ s.count := by
          cases hR : (callGeminiAPIWithRetry (fun a => oracle (base + a - 1)) 2).1 with
          | ok r =>
              simp only [hR]
              by_cases hl : 0 < r.length
              · simp only [if_pos hl, List.length_map, enumFrom_length, List.length_take]
                exact min_le_left _ _
              · simp only [if_neg hl, List.length_nil]
                omega
          | error e =>
              simp only [hR, List.length_nil]
              omega
        have hrest := ih (base + (callGeminiAPIWithRetry (fun a => oracle (base + a - 1)) 2).2)
        simp only [List.map_cons, List.sum_cons]
        omega

/-- C10: the sequential full-test strategy truncates each subject's
sub-call result to that subject's distribution share before accumulation,
so the combined list never exceeds the requested question count. -/
theorem sequential_total_le_requested :
    ∀ (oracle : Nat → Except String (List JVal)) (rand : Nat → Nat → Nat)
      (params : GenParams),
    (generateSequentialFullTest oracle rand params).questions.length ≤
      params.questionCount := by
  intro oracle rand params
  have h := seqGo_length oracle rand params.yearRange
    (fullTestSubjects params.questionCount) 0
  have hsum : ((fullTestSubjects params.questionCount).map (fun s => s.count)).sum =
      params.questionCount := by
    have hd := calculateDistribution_sum params.questionCount
    simp only [fullTestSubjects, List.map_cons, List.map_nil, List.sum_cons, List.sum_nil]
    simp only [distSum] at hd
    omega
  rw [generateSequentialFullTest]
  omega

lemma seqGo_invocations (oracle : Nat → Except String (List JVal)) (rand : Nat → Nat → Nat)
    (yr : YearRange) : ∀ (subjects : List SubjectSpec) (base : Nat),
    (seqGo oracle rand yr subjects base).invocations =
      (subjects.filter (fun s => 0 < s.count)).length := by
  intro subjects
  induction subjects with
  | nil => intro base; simp [seqGo_nil]
  | cons s rest ih =>
      intro base
      rw [seqGo_cons]
      by_cases hc : s.count = 0
      · rw [if_pos hc, ih base]
        simp [List.filter_cons, hc]
      · rw [if_neg hc]
        dsimp only
        have hpos : 0 < s.count := Nat.pos_of_ne_zero hc
        rw [ih]
        simp [List.filter_cons, hpos]
        omega

/-- C2: the orchestrator picks its strategy in source precedence: a topic
test with a topic present issues one Retry-wrapped call; otherwise a
subject test with a subject present and count at most 35 issues one call;
otherwise a full test with count above 30 runs the sequential per-subject
path, issuing one sub-call per subject with a positive distribution share;
otherwise count at most 35 issues one call; otherwise batching is used. -/
theorem orchestrator_strategy_selection :
    ∀ (oracle : Nat → Except String (List JVal)) (rand : Nat → Nat → Nat)
      (params : GenParams),
    ((generateQuestionsWithBatching oracle rand params).strategy = .topicSingle ↔
        (params.testFormat = "topic-test" ∧ optTruthy params.topic = true)) ∧
    ((generateQuestionsWithBatching oracle rand params).strategy = .subjectSingle ↔
        (¬(params.testFormat = "topic-test" ∧ optTruthy params.topic = true) ∧
         (params.testFormat = "subject-test" ∧ optTruthy params.selectedSubject = true ∧
          params.questionCount ≤ 35))) ∧
    ((generateQuestionsWithBatching oracle rand params).strategy = .sequentialFull ↔
        (¬(params.testFormat = "topic-test" ∧ optTruthy params.topic = true) ∧
         ¬(params.testFormat = "subject-test" ∧ optTruthy params.selectedSubject = true ∧
           params.questionCount ≤ 35) ∧
         (params.testFormat = "full-test" ∧ 30 < params.questionCount))) ∧
    ((generateQuestionsWithBatching oracle rand params).strategy = .smallSingle ↔
        (¬(params.testFormat = "topic-test" ∧ optTruthy params.topic = true) ∧
         ¬(params.testFormat = "subject-test" ∧ optTruthy params.selectedSubject = true ∧
           params.questionCount ≤ 35) ∧
         ¬(params.testFormat = "full-test" ∧ 30 < params.questionCount) ∧
         params.questionCount ≤ 35)) ∧
    ((generateQuestionsWithBatching oracle rand params).strategy = .batched ↔
        (¬(params.testFormat = "topic-test" ∧ optTruthy params.topic = true) ∧
         ¬(params.testFormat = "subject-test" ∧ optTruthy params.selectedSubject = true ∧
           params.questionCount ≤ 35) ∧
         ¬(params.testFormat = "full-test" ∧ 30 < params.questionCount) ∧
         ¬ params.questionCount ≤ 35)) ∧
    (((generateQuestionsWithBatching oracle rand params).strategy = .topicSingle ∨
      (generateQuestionsWithBatching oracle rand params).strategy = .subjectSingle ∨
      (generateQuestionsWithBatching oracle rand params).strategy = .smallSingle) →
      (generateQuestionsWithBatching oracle rand params).invocations = 1) ∧
    ((generateQuestionsWithBatching oracle rand params).strategy = .sequentialFull →
      (generateQuestionsWithBatching oracle rand params).invocations =
        ((fullTestSubjects params.questionCount).filter (fun s => 0 < s.count)).length) := by
  intro oracle rand params
  unfold generateQuestionsWithBatching
  split_ifs with h1 h2 h3 h4
  · exact ⟨iff_of_true rfl h1, iff_of_false (by simp) (by tauto),
      iff_of_false (by simp) (by tauto), iff_of_false (by simp) (by tauto),
      iff_of_false (by simp) (by tauto), fun _ => rfl, by intro hmem; simp at hmem⟩
  · exact ⟨iff_of_false (by simp) (by tauto), iff_of_true rfl ⟨h1, h2⟩,
      iff_of_false (by simp) (by tauto), iff_of_false (by simp) (by tauto),
      iff_of_false (by simp) (by tauto), fun _ => rfl, by intro hmem; simp at hmem⟩
  · refine ⟨iff_of_false (by simp) (by tauto), iff_of_false (by simp) (by tauto),
      iff_of_true rfl ⟨h1, h2, h3⟩, iff_of_false (by simp) (by tauto),
      iff_of_false (by simp) (by tauto), by intro hmem; simp at hmem, ?_⟩
    intro
    show (generateSequentialFullTest oracle rand params).invocations = _
    rw [generateSequentialFullTest, seqGo_invocations]
  · exact ⟨iff_of_false (by simp) (by tauto), iff_of_false (by simp) (by tauto),
      iff_of_false (by simp) (by tauto), iff_of_true rfl ⟨h1, h2, h3, h4⟩,
      iff_of_false (by simp) (by tauto), fun _ => rfl, by intro hmem; simp at hmem⟩
  · exact ⟨iff_of_false (by simp) (by tauto), iff_of_false (by simp) (by tauto),
      iff_of_false (by simp) (by tauto), iff_of_false (by simp) (by tauto),
      iff_of_true rfl ⟨h1, h2, h3, h4⟩, by intro hmem; simp at hmem,
      by intro hmem; simp at hmem⟩

/-- Witness for C2: a topic test with a topic present selects the single
Retry-wrapped topic strategy. -/
theorem orchestrator_strategy_selection_witness :
    (generateQuestionsWithBatching stubOracle zeroRand topicParams).strategy = .topicSingle :=
  (orchestrator_strategy_selection stubOracle zeroRand topicParams).1.mpr ⟨rfl, rfl⟩

/-! Helper lemmas about the batch loop. -/

lemma batchLoop_zero (oracle : Nat → Except String (List JVal)) (qc bs base : Nat)
    (acc : List JVal) : batchLoop oracle qc bs 0 base acc = ⟨acc, 0, 0⟩ := rfl

lemma batchLoop_succ (oracle : Nat → Except String (List JVal)) (qc bs remaining base : Nat)
    (acc : List JVal) :
    batchLoop oracle qc bs (remaining + 1) base acc =
      if min bs (qc - acc.length) = 0 then ⟨acc, 0, 0⟩
      else if qc ≤ (batchAcc oracle base acc).length then
        ⟨batchAcc oracle base acc,
         (callGeminiAPIWithRetry (fun a => oracle (base + a - 1)) 2).2, 1⟩
      else
        ⟨(batchLoop oracle qc bs remaining
            (base + (callGeminiAPIWithRetry (fun a => oracle (base + a - 1)) 2).2)
            (batchAcc oracle base acc)).questions,
         (callGeminiAPIWithRetry (fun a => oracle (base + a - 1)) 2).2 +
           (batchLoop oracle qc bs remaining
             (base + (callGeminiAPIWithRetry (fun a => oracle (base + a - 1)) 2).2)
             (batchAcc oracle base acc)).calls,
         1 + (batchLoop oracle qc bs remaining
             (base + (callGeminiAPIWithRetry (fun a => oracle (base + a - 1)) 2).2)
             (batchAcc oracle base acc)).invocations⟩ := rfl

lemma batching_length_le (oracle : Nat → Except String (List JVal)) (qc : Nat) :
    (batchingStrategy oracle qc).questions.length ≤ qc := by
  unfold batchingStrategy
  dsimp only
  rw [List.length_take]
  exact min_le_left _ _

lemma natCeilDiv3_eq_ceil (qc : Nat) : (natCeilDiv qc 3 : ℤ) = ⌈(qc : ℚ) / 3⌉ := by
  have h1 : qc ≤ 3 * natCeilDiv qc 3 := by unfold natCeilDiv; omega
  have h2 : 3 * natCeilDiv qc 3 < qc + 3 := by unfold natCeilDiv; omega
  have h1q : (qc : ℚ) ≤ 3 * (natCeilDiv qc 3 : ℚ) := by exact_mod_cast h1
  have h2q : 3 * (natCeilDiv qc 3 : ℚ) < (qc : ℚ) + 3 := by exact_mod_cast h2
  symm
  rw [Int.ceil_eq_iff]
  refine ⟨?_, ?_⟩
  · rw [lt_div_iff₀ (by norm_num : (0 : ℚ) < 3)]
    push_cast
    linarith
  · rw [div_le_iff₀ (by norm_num : (0 : ℚ) < 3)]
    push_cast
    linarith

lemma batching_first_batch_enough (oracle : Nat → Except String (List JVal)) (qc : Nat)
    (r : List JVal) (hqc : 36 ≤ qc) (h0 : oracle 0 = .ok r) (hlen : qc ≤ r.length) :
    batchingStrategy oracle qc = ⟨r.take qc, 1, 1⟩ := by
  unfold batchingStrategy
  dsimp only
  generalize hbsdef : min 30 (natCeilDiv qc 3) = bs
  have hbs0 : 0 < bs := by rw [← hbsdef]; unfold natCeilDiv; omega
  have hnb1 : 1 ≤ natCeilDiv qc bs := by
    unfold natCeilDiv
    rw [Nat.le_div_iff_mul_le hbs0]
    omega
  obtain ⟨k, hk⟩ : ∃ k, natCeilDiv qc bs = k + 1 := ⟨natCeilDiv qc bs - 1, by omega⟩
  have hretry : callGeminiAPIWithRetry (fun a => oracle (0 + a - 1)) 2 = (.ok r, 1) := by
    apply retryLoop_ok_pos _ 2 1 1 r
    · show oracle (0 + 1 - 1) = .ok r
      simpa using h0
    · omega
  have hacc : batchAcc oracle 0 [] = r := by
    unfold batchAcc
    rw [hretry]
    dsimp only
    rw [if_pos (by omega : 0 < r.length)]
    exact List.nil_append r
  have hloop : batchLoop oracle qc bs (k + 1) 0 [] = ⟨r, 1, 1⟩ := by
    rw [batchLoop_succ, hacc, hretry]
    simp only [List.length_nil, Nat.sub_zero]
    rw [if_neg (by omega : ¬ min bs qc = 0), if_pos hlen]
  rw [hk, hloop]

lemma batching_skips_failed_batch (oracle : Nat → Except String (List JVal)) (qc : Nat)
    (r : List JVal) (e1 e2 : String) (hqc : 36 ≤ qc) (h0 : oracle 0 = .error e1)
    (h1 : oracle 1 = .error e2) (h2 : oracle 2 = .ok r) (hlen : qc ≤ r.length) :
    batchingStrategy oracle qc = ⟨r.take qc, 3, 2⟩ := by
  unfold batchingStrategy
  dsimp only
  generalize hbsdef : min 30 (natCeilDiv qc 3) = bs
  have hbs0 : 0 < bs := by rw [← hbsdef]; unfold natCeilDiv; omega
  have hbsle : bs ≤ 30 := by rw [← hbsdef]; exact min_le_left _ _
  have hnb2 : 2 ≤ natCeilDiv qc bs := by
    unfold natCeilDiv
    rw [Nat.le_div_iff_mul_le hbs0]
    omega
  obtain ⟨k, hk⟩ : ∃ k, natCeilDiv qc bs = (k + 1) + 1 := ⟨natCeilDiv qc bs - 2, by omega⟩
  have hretry1 : callGeminiAPIWithRetry (fun a => oracle (0 + a - 1)) 2 = (.error e2, 2) := by
    have s2 : retryLoop (fun a => oracle (0 + a - 1)) 2 1 2 = (.error e2, 1) := by
      apply retryLoop_err_last _ 2 0 e2
      show oracle (0 + 2 - 1) = .error e2
      simpa using h1
    calc callGeminiAPIWithRetry (fun a => oracle (0 + a - 1)) 2
        = ((retryLoop (fun a => oracle (0 + a - 1)) 2 1 2).1,
           (retryLoop (fun a => oracle (0 + a - 1)) 2 1 2).2 + 1) := by
          apply retryLoop_err _ 2 1 1 e1
          · show oracle (0 + 1 - 1) = .error e1
            simpa using h0
          · norm_num
      _ = (.error e2, 2) := by rw [s2]
  have hacc1 : batchAcc oracle 0 [] = [] := by
    unfold batchAcc
    rw [hretry1]
  have hretry2 : callGeminiAPIWithRetry (fun a => oracle (2 + a - 1)) 2 = (.ok r, 1) := by
    apply retryLoop_ok_pos _ 2 1 1 r
    · show oracle (2 + 1 - 1) = .ok r
      simpa using h2
    · omega
  have hacc2 : batchAcc oracle 2 [] = r := by
    unfold batchAcc
    rw [hretry2]
    dsimp only
    rw [if_pos (by omega : 0 < r.length)]
    exact List.nil_append r
  have hinner : batchLoop oracle qc bs (k + 1) 2 [] = ⟨r, 1, 1⟩ := by
    rw [batchLoop_succ, hacc2, hretry2]
    simp only [List.length_nil, Nat.sub_zero]
    rw [if_neg (by omega : ¬ min bs qc = 0), if_pos hlen]
  have hloop : batchLoop oracle qc bs ((k + 1) + 1) 0 [] = ⟨r, 3, 2⟩ := by
    rw [batchLoop_succ, hacc1, hretry1]
    simp only [List.length_nil, Nat.sub_zero]
    rw [if_neg (by omega : ¬ min bs qc = 0)]
    rw [if_neg (by omega : ¬ qc ≤ 0)]
    simp only [Nat.zero_add]
    rw [hinner]
    rfl
  rw [hk, hloop]

/-- C5: the batch size is min(30, ceil(count/3)) with the exact rational
ceiling, the final list is the accumulated list truncated to at most the
requested count, a first batch already covering the request stops the loop
after a single call, and a failed first batch is skipped while the next
batch still delivers (never an error). -/
theorem batching_size_truncation_and_skip :
    (∀ questionCount : Nat, (natCeilDiv questionCount 3 : ℤ) = ⌈(questionCount : ℚ) / 3⌉) ∧
    (∀ (oracle : Nat → Except String (List JVal)) (questionCount : Nat),
        (batchingStrategy oracle questionCount).questions.length ≤ questionCount) ∧
    (∀ (oracle : Nat → Except String (List JVal)) (questionCount : Nat) (r : List JVal),
        36 ≤ questionCount → oracle 0 = .ok r → questionCount ≤ r.length →
        batchingStrategy oracle questionCount = ⟨r.take questionCount, 1, 1⟩) ∧
    (∀ (oracle : Nat → Except String (List JVal)) (questionCount : Nat) (r : List JVal)
        (e1 e2 : String),
        36 ≤ questionCount → oracle 0 = .error e1 → oracle 1 = .error e2 →
        oracle 2 = .ok r → questionCount ≤ r.length →
        batchingStrategy oracle questionCount = ⟨r.take questionCount, 3, 2⟩) :=
  ⟨natCeilDiv3_eq_ceil, batching_length_le,
   fun oracle qc r hqc h0 hlen => batching_first_batch_enough oracle qc r hqc h0 hlen,
   fun oracle qc r e1 e2 hqc h0 h1 h2 hlen =>
     batching_skips_failed_batch oracle qc r e1 e2 hqc h0 h1 h2 hlen⟩

/-- Witness for C5: with 36 requested and a first batch of 36 results, the
batching strategy returns them after one call. -/
theorem batching_size_truncation_and_skip_witness :
    batchingStrategy bigOracle 36 = ⟨bigList.take 36, 1, 1⟩ :=
  batching_size_truncation_and_skip.2.2.1 bigOracle 36 bigList (by norm_num) rfl
    (by simp [bigList])

/-! Helper lemmas about the Model Client backfill. -/

lemma lookup_spread_jSetField_same (q : JVal) (k : String) (v : JVal) :
    lookupField (spreadFields (jSetField q k v)) k = some v :=
  lookupField_setFieldList_same _ _ _

lemma lookup_spread_jSetField_ne (q : JVal) (k k2 : String) (v : JVal) (h : k2 ≠ k) :
    lookupField (spreadFields (jSetField q k v)) k2 = lookupField (spreadFields q) k2 :=
  lookupField_setFieldList_ne _ _ _ _ h

lemma backfillCandidate_year (r : Nat) (q : JVal) :
    (backfillCandidate r q).getField "year" =
      some (if jsTruthyOpt (q.getField "year") then (q.getField "year").getD .null
            else .num (getRandomYear .missing r)) := by
  unfold backfillCandidate
  rw [getField_jSetField_ne _ _ _ _ (by decide : ("year" : String) ≠ "difficulty"),
    lookup_spread_jSetField_ne _ _ _ _ (by decide : ("year" : String) ≠ "topic"),
    lookup_spread_jSetField_same]

lemma backfillCandidate_topic (r : Nat) (q : JVal) :
    (backfillCandidate r q).getField "topic" =
      some (if jsTruthyOpt (q.getField "topic") then (q.getField "topic").getD .null
            else .str "General") := by
  unfold backfillCandidate
  rw [getField_jSetField_ne _ _ _ _ (by decide : ("topic" : String) ≠ "difficulty"),
    lookup_spread_jSetField_same]

lemma backfillCandidate_difficulty (r : Nat) (q : JVal) :
    (backfillCandidate r q).getField "difficulty" =
      some (if jsTruthyOpt (q.getField "difficulty") then (q.getField "difficulty").getD .null
            else .str "moderate") := by
  unfold backfillCandidate
  rw [getField_jSetField_same]

lemma getRandomYear_missing_mem (r : Nat) :
    2018 ≤ getRandomYear .missing r ∧ getRandomYear .missing r ≤ 2025 := by
  unfold getRandomYear normalizeYearRange
  dsimp only
  omega

/-- C7 counterexample: with the requested window "2010s" (normalizing to
2010-2019), a candidate missing year can be backfilled with 2025 (random
draw 7), outside the requested window: callGeminiAPI passes null to
getRandomYear, so the backfill ignores the requested range. -/
theorem backfill_year_window_counterexample :
    normalizeYearRange (.str "2010s") = some (2010, 2019) ∧
    (backfillCandidate 7 (JVal.obj [])).getField "year" = some (.num 2025) ∧
    ¬ ((2010 : Int) ≤ 2025 ∧ (2025 : Int) ≤ 2019) := by
  refine ⟨by decide, rfl, by omega⟩

/-- C7 amended: on every successful parse the Model Client backfills a
missing year with a random year inside the fixed window 2018-2025
regardless of any requested year range, a missing topic with "General" and
a missing difficulty with "moderate"; present values are kept. -/
theorem backfill_defaults : ∀ (r : Nat) (q : JVal),
    (jsTruthyOpt (q.getField "year") = false →
      ∃ y : Int, (backfillCandidate r q).getField "year" = some (.num y) ∧
        2018 ≤ y ∧ y ≤ 2025) ∧
    (jsTruthyOpt (q.getField "year") = true →
      (backfillCandidate r q).getField "year" = some ((q.getField "year").getD .null)) ∧
    (jsTruthyOpt (q.getField "topic") = false →
      (backfillCandidate r q).getField "topic" = some (.str "General")) ∧
    (jsTruthyOpt (q.getField "difficulty") = false →
      (backfillCandidate r q).getField "difficulty" = some (.str "moderate")) := by
  intro r q
  refine ⟨?_, ?_, ?_, ?_⟩
  · intro hf
    refine ⟨getRandomYear .missing r, ?_, (getRandomYear_missing_mem r).1,
      (getRandomYear_missing_mem r).2⟩
    rw [backfillCandidate_year, hf]
    simp
  · intro ht
    rw [backfillCandidate_year, ht]
    simp
  · intro hf
    rw [backfillCandidate_topic, hf]
    simp
  · intro hf
    rw [backfillCandidate_difficulty, hf]
    simp

/-- Witness for the amended C7 at a field-less candidate and draw 3. -/
theorem backfill_defaults_witness :
    ∃ y : Int, (backfillCandidate 3 (JVal.obj [])).getField "year" = some (.num y) ∧
      2018 ≤ y ∧ y ≤ 2025 :=
  (backfill_defaults 3 (JVal.obj [])).1 rfl

lemma not_truthy_subject_not_key (o : Option String) (h : ¬ optTruthy o = true) :
    ¬ (jsToLower (o.getD "") ∈ subjectKeys) := by
  cases o with
  | none => decide
  | some s =>
      simp [optTruthy] at h
      subst h
      decide

/-- C8: the question-generation endpoint answers 400 exactly for a
missing, non-numeric or out-of-range count, a topic test without a
non-blank topic, or a subject test whose resolved subject is absent or not
one of the five subject keys (case-insensitively); on a valid request a
failed generation yields 408 when the message is timeout-classified, 503
when it is API-classified and 500 otherwise, and a successful generation
whose candidates all fail validation yields 500. -/
theorem endpoint_status_codes : ∀ (r : ApiRequest) (gen : Except String (List JVal)),
    (endpointStatus r gen = 400 ↔
      SpecBadCount r ∨ SpecMissingTopic r ∨ SpecInvalidSubject r) ∧
    (∀ (n : Int), r.count = some (some n) → ¬ SpecBadCount r → ¬ SpecMissingTopic r →
      ¬ SpecInvalidSubject r →
      (∀ m, gen = .error m →
        endpointStatus r gen =
          if strIncludes m "timeout" then 408
          else if strIncludes m "API" then 503 else 500) ∧
      (∀ qs, gen = .ok qs → (validateAndFilterQuestions qs n.toNat).length = 0 →
        endpointStatus r gen = 500)) := by
  intro r gen
  obtain ⟨cnt, tf, ss, sj, tp⟩ := r
  cases cnt with
  | none =>
      refine ⟨?_, ?_⟩
      · simp only [endpointStatus]
        exact iff_of_true trivial (Or.inl (Or.inl rfl))
      · intro n hn
        exact absurd hn (by simp)
  | some c =>
    cases c with
    | none =>
        refine ⟨?_, ?_⟩
        · simp only [endpointStatus]
          exact iff_of_true trivial (Or.inl (Or.inr (Or.inl rfl)))
        · intro n hn
          exact absurd hn (by simp)
    | some n =>
        by_cases h1 : n < 1 ∨ 180 < n
        · refine ⟨?_, ?_⟩
          · simp only [endpointStatus, if_pos h1]
            exact iff_of_true trivial (Or.inl (Or.inr (Or.inr ⟨n, rfl, h1⟩)))
          · intro n2 hn2 hbad hmt hsub
            exact absurd (Or.inr (Or.inr ⟨n, rfl, h1⟩)) hbad
        · by_cases h2 : resolveTestFormat ⟨some (some n), tf, ss, sj, tp⟩ = "topic-test" ∧
              (tp.getD "").trim = ""
          · refine ⟨?_, ?_⟩
            · simp only [endpointStatus, if_neg h1, if_pos h2]
              exact iff_of_true trivial (Or.inr (Or.inl h2))
            · intro n2 hn2 hbad hmt hsub
              exact absurd h2 hmt
          · by_cases h3 : resolveTestFormat ⟨some (some n), tf, ss, sj, tp⟩ = "subject-test" ∧
                ¬ optTruthy (resolveSubject ⟨some (some n), tf, ss, sj, tp⟩) = true
            · refine ⟨?_, ?_⟩
              · simp only [endpointStatus, if_neg h1, if_neg h2, if_pos h3]
                exact iff_of_true trivial
                  (Or.inr (Or.inr ⟨h3.1, not_truthy_subject_not_key _ h3.2⟩))
              · intro n2 hn2 hbad hmt hsub
                exact absurd ⟨h3.1, not_truthy_subject_not_key _ h3.2⟩ hsub
            · by_cases h4 : resolveTestFormat ⟨some (some n), tf, ss, sj, tp⟩ = "subject-test" ∧
                  ¬ jsToLower ((resolveSubject ⟨some (some n), tf, ss, sj, tp⟩).getD "") ∈
                    subjectKeys
              · refine ⟨?_, ?_⟩
                · simp only [endpointStatus, if_neg h1, if_neg h2, if_neg h3, if_pos h4]
                  exact iff_of_true trivial (Or.inr (Or.inr h4))
                · intro n2 hn2 hbad hmt hsub
                  exact absurd h4 hsub
              · refine ⟨?_, ?_⟩
                · simp only [endpointStatus, if_neg h1, if_neg h2, if_neg h3, if_neg h4]
                  constructor
                  · intro hstat
                    exfalso
                    cases gen with
                    | error m =>
                        dsimp only at hstat
                        by_cases ht : strIncludes m "timeout" = true
                        · rw [if_pos ht] at hstat
                          norm_num at hstat
                        · rw [if_neg ht] at hstat
                          by_cases ha : strIncludes m "API" = true
                          · rw [if_pos ha] at hstat
                            norm_num at hstat
                          · rw [if_neg ha] at hstat
                            norm_num at hstat
                    | ok qs =>
                        dsimp only at hstat
                        by_cases hz : (validateAndFilterQuestions qs n.toNat).length = 0
                        · rw [if_pos hz] at hstat
                          norm_num at hstat
                        · rw [if_neg hz] at hstat
                          norm_num at hstat
                  · intro hOr
                    exfalso
                    rcases hOr with hb | hm | hs
                    · rcases hb with hb | hb | ⟨n2, hn2, hr⟩
                      · simp at hb
                      · simp at hb
                      · have h5 : n = n2 := by simpa using hn2
                        subst h5
                        exact h1 hr
                    · exact h2 hm
                    · exact h4 hs
                · intro n2 hn2 hbad hmt hsub
                  have hnn : n = n2 := by simpa using hn2
                  subst hnn
                  refine ⟨?_, ?_⟩
                  · intro m hgen
                    subst hgen
                    simp only [endpointStatus, if_neg h1, if_neg h2, if_neg h3, if_neg h4]
                  · intro qs hgen hz
                    subst hgen
                    simp only [endpointStatus, if_neg h1, if_neg h2, if_neg h3, if_neg h4]
                    rw [if_pos hz]

/-- Witness for C8: a request with no count at all is answered 400. -/
theorem endpoint_status_codes_witness :
    endpointStatus emptyRequest (.ok []) = 400 :=
  (endpoint_status_codes emptyRequest (.ok [])).1.mpr (Or.inl (Or.inl rfl))

end MDCAT
